import Mathlib

/-!
Verification development for the RAG multi-tenant document-search
application: a shallow embedding of the React frontend
(`ui-react/src/services/api.js`, `App.jsx`, `QueryForm.jsx`,
`UploadDocument.jsx`, `QueryResults.jsx`) together with a model of the
multi-tenant retrieval backend described by the design document (the
backend sources are not part of this tree).
-/

namespace RagMT

/-- A source citation as delivered by the `/query` endpoint:
`sources: [\x7bdoc_id, chunk_id, score, excerpt\x7d]`.  The score is a string
in the JSON payload and is only displayed by the frontend. -/
structure FrontSource where
  doc_id : String
  chunk_id : Nat
  score : String
  excerpt : String
deriving DecidableEq, Repr

/-- The `/query` response consumed by the frontend:
`tenant_id`, `answer`, `sources`, `no_answer`.  The `sources` field is
optional so that an absent (`null`/`undefined`) list, which
`QueryResults.jsx` guards against with `!sources`, is representable. -/
structure QueryResult where
  tenant_id : String
  answer : String
  sources : Option (List FrontSource)
  no_answer : Bool
deriving DecidableEq, Repr

/-- One HTTP header, a name/value pair. -/
structure HttpHeader where
  name : String
  value : String
deriving DecidableEq, Repr

/-- The body of an outgoing request: either a JSON object (field/value
pairs, as produced by `JSON.stringify`) or a multipart form (part
name / content pairs, as produced by `FormData`). -/
inductive RequestBody where
  | jsonFields (fields : List (String × String))
  | multipart (parts : List (String × String))
deriving DecidableEq, Repr

/-- An outgoing HTTP request as assembled by a `fetch` call. -/
structure Request where
  url : String
  method : String
  headers : List HttpHeader
  body : RequestBody
deriving DecidableEq, Repr

/-- `API_BASE_URL` from `services/api.js` (default branch of the
environment lookup). -/
def API_BASE_URL : String := "http://localhost:8000"

/-- `String.prototype.endsWith`, modelled on the character lists: the
suffix's characters are a suffix of the string's characters. -/
def strEndsWith (s suffix : String) : Bool := suffix.data.isSuffixOf s.data

/-- The request assembled by `queryDocuments` in `services/api.js`:
POST to `/query`, headers `Content-Type: application/json` and
`X-API-KEY: apiKey`, body `JSON.stringify(\x7b question \x7d)`. -/
def queryDocumentsRequest (question apiKey : String) : Request where
  url := API_BASE_URL ++ "/query"
  method := "POST"
  headers := [⟨"Content-Type", "application/json"⟩, ⟨"X-API-KEY", apiKey⟩]
  body := .jsonFields [("question", question)]

/-- A browser `File` object as far as the upload component inspects it:
a name and a size in bytes. -/
structure JsFile where
  name : String
  size : Nat
deriving DecidableEq, Repr

/-- The request assembled by `handleUpload` in `UploadDocument.jsx`:
POST to `/upload`, sole header `X-API-KEY: apiKey`, body a `FormData`
carrying the file under the part name `file`. -/
def uploadRequest (apiKey : String) (file : JsFile) : Request where
  url := API_BASE_URL ++ "/upload"
  method := "POST"
  headers := [⟨"X-API-KEY", apiKey⟩]
  body := .multipart [("file", file.name)]

/-- Look up the value of the header named `n` in request `r`. -/
def headerValue (r : Request) (n : String) : Option String :=
  (r.headers.find? (fun h => h.name == n)).map HttpHeader.value

/-- The message thrown by `queryDocuments` on a 401 response. -/
def invalidKeyMsg : String := "Clé API invalide ou manquante"

/-- The message thrown by `queryDocuments` on any other non-ok response. -/
def serverErrorMsg (status : Nat) : String := "Erreur serveur: " ++ toString status

/-- `Response.ok` of the Fetch API: true exactly for 2xx statuses. -/
def responseOk (status : Nat) : Bool := decide (200 ≤ status) && decide (status < 300)

/-- Outcome of `queryDocuments` once a response with the given status and
(parsed) payload has arrived: `!response.ok` with status 401 throws the
invalid-key message, any other non-ok status throws the generic server
error, and an ok response resolves to the parsed payload. -/
def queryDocumentsHandle (status : Nat) (data : QueryResult) : Except String QueryResult :=
  if responseOk status = false then
    if status = 401 then .error invalidKeyMsg
    else .error (serverErrorMsg status)
  else .ok data

/-- The pieces of `App` component state touched by a query. -/
structure AppState where
  result : Option QueryResult
  error : Option String
  loading : Bool
  backendStatus : Option String
deriving DecidableEq, Repr

/-- Initial `App` state: all `useState` defaults. -/
def initialAppState : AppState :=
  { result := none, error := none, loading := false, backendStatus := none }

/-- `handleQuery` of `App.jsx` applied to the outcome of the awaited
`queryDocuments` call: it first sets loading and clears both the error
and the result, then on success stores only the result and on failure
stores only the error message (with the generic fallback when the
thrown message is empty); `finally` clears the loading flag. -/
def handleQuery (st : AppState) (outcome : Except String QueryResult) : AppState :=
  let st1 : AppState := { st with loading := true, error := none, result := none }
  match outcome with
  | .ok data => { st1 with result := some data, loading := false }
  | .error msg =>
      { st1 with error := some (if msg = "" then "Une erreur est survenue" else msg),
                 loading := false }

/-- End-to-end handling of one query in `App`: the response with the
given status and payload is interpreted by `queryDocuments` and the
outcome folded into component state by `handleQuery`. -/
def handleQueryResponse (st : AppState) (status : Nat) (data : QueryResult) : AppState :=
  handleQuery st (queryDocumentsHandle status data)

/-- Outcome of the `checkHealth` call in `services/api.js`: either the
parsed JSON `\x7bstatus: s\x7d` arrived or the request itself failed and
`checkHealth` re-threw the error. -/
inductive HealthOutcome where
  | success (status : String)
  | failure
deriving DecidableEq, Repr

/-- The effectful calls `App` makes on mount.  The `useEffect` with an
empty dependency array runs its body once per mount, and that body
performs exactly one `checkHealth` call. -/
inductive EffectCall where
  | healthCheck
deriving DecidableEq, Repr

/-- The list of effect calls issued by mounting `App`. -/
def startupEffects : List EffectCall := [.healthCheck]

/-- `checkHealth` as seen by its caller: the status string on success,
an exception on network failure. -/
def checkHealthResult : HealthOutcome → Except Unit String
  | .success s => .ok s
  | .failure => .error ()

/-- The `backendStatus` stored by `App` after the startup health check:
`then` stores the returned status object, `catch` stores
`\x7b status: "error" \x7d`. -/
def startupBackendStatus (o : HealthOutcome) : String :=
  match checkHealthResult o with
  | .ok s => s
  | .error _ => "error"

/-- The three renderings of the backend-status badge in `App`. -/
inductive Badge where
  | operational
  | unavailable
  | connecting
deriving DecidableEq, Repr

/-- The badge rendered from `backendStatus`:
`backendStatus?.status === "ok"` shows the operational badge,
`backendStatus?.status === "error"` the service-unavailable badge, and
anything else (including the initial `null`) the connecting badge. -/
def renderBadge (backendStatus : Option String) : Badge :=
  match backendStatus with
  | some s => if s = "ok" then .operational else if s = "error" then .unavailable else .connecting
  | none => .connecting

/-- String trimming as used by `question.trim()`: remove leading and
trailing whitespace characters. -/
def jsTrim (s : String) : String :=
  ⟨((s.data.dropWhile Char.isWhitespace).reverse.dropWhile Char.isWhitespace).reverse⟩

/-- `handleSubmit` of `QueryForm.jsx`: after `preventDefault`, the
`onSubmit` callback is invoked with the question and the selected API
key exactly when the trimmed question is truthy, i.e. non-empty.  The
result is the argument pair passed to `onSubmit`, or `none` when the
callback is not invoked. -/
def handleSubmit (question apiKey : String) : Option (String × String) :=
  if jsTrim question = "" then none else some (question, apiKey)

/-- The pieces of `UploadDocument` component state the claims are about.
The success payload is abstracted to its message. -/
structure UploadState where
  file : Option JsFile
  uploading : Bool
  success : Option String
  error : Option String
  apiKey : String
deriving DecidableEq, Repr

/-- Initial `UploadDocument` state: all `useState` defaults. -/
def initialUploadState : UploadState :=
  { file := none, uploading := false, success := none, error := none,
    apiKey := "tenantA_key" }

/-- `handleFileChange` of `UploadDocument.jsx` applied to
`e.target.files[0]` (which may be absent): with no file nothing
happens; otherwise a name not ending in `.txt`, a zero size, or a size
above `5 * 1024 * 1024` bytes each set a descriptive error and clear
the selection, and a file passing all three checks becomes the
selection while the error and the stale success message are cleared. -/
def handleFileChange (selected : Option JsFile) (st : UploadState) : UploadState :=
  match selected with
  | none => st
  | some selectedFile =>
    if strEndsWith selectedFile.name ".txt" = false then
      { st with error := some "Seuls les fichiers .txt sont acceptés", file := none }
    else if selectedFile.size = 0 then
      { st with error := some "Le fichier est vide", file := none }
    else if 5 * 1024 * 1024 < selectedFile.size then
      { st with error := some "Le fichier est trop volumineux (max 5MB)", file := none }
    else
      { st with file := some selectedFile, error := none, success := none }

/-- `handleDrop` of `UploadDocument.jsx`: after `preventDefault` and
`stopPropagation`, a dropped file (if any) is wrapped in a synthetic
`\x7b target: \x7b files: [droppedFile] \x7d \x7d` event and delegated to
`handleFileChange`. -/
def handleDrop (dropped : Option JsFile) (st : UploadState) : UploadState :=
  match dropped with
  | some droppedFile => handleFileChange (some droppedFile) st
  | none => st

/-- The upload request `handleUpload` would issue from the given state:
its first guard returns early (no request) when no file is selected. -/
def uploadRequestOf (st : UploadState) : Option Request :=
  st.file.map (fun f => uploadRequest st.apiKey f)

/-- One rendered source entry of `QueryResults.jsx`: the document id,
chunk id, score and excerpt it displays for a source. -/
structure SourceView where
  doc_id : String
  chunk_id : Nat
  score : String
  excerpt : String
deriving DecidableEq, Repr

/-- What `QueryResults.jsx` renders for a non-null result: the tenant
badge, the answer box (absent when the no-answer notice is shown
instead), the no-answer notice flag, the no-sources message flag, and
the list of rendered source entries. -/
structure RenderedResults where
  tenantBadge : String
  answerText : Option String
  noAnswerNotice : Bool
  noSourcesMsg : Bool
  sourcesViews : List SourceView
deriving DecidableEq, Repr

/-- The `!sources || sources.length === 0` guard of `QueryResults.jsx`. -/
def hasNoSources (r : QueryResult) : Bool :=
  match r.sources with
  | none => true
  | some l => l.isEmpty

/-- The rendering function of `QueryResults.jsx` for a non-null result:
`no_answer` selects the notice instead of the answer box, the sources
section shows the no-sources message or one entry per source with its
`doc_id`, `chunk_id`, `score` and `excerpt`. -/
def renderResult (r : QueryResult) : RenderedResults :=
  { tenantBadge := r.tenant_id
  , answerText := if r.no_answer then none else some r.answer
  , noAnswerNotice := r.no_answer
  , noSourcesMsg := hasNoSources r
  , sourcesViews :=
      if hasNoSources r then []
      else (r.sources.getD []).map (fun s => ⟨s.doc_id, s.chunk_id, s.score, s.excerpt⟩) }

/-- `QueryResults` on its `result` prop: `if (!result) return null`. -/
def renderQueryResults (result : Option QueryResult) : Option RenderedResults :=
  result.map renderResult

namespace Backend

/-!
The backend engine (FastAPI service: tenant registry, chunker,
per-tenant indexes, retrieval) is not part of this source tree; the
definitions in this namespace are modelled from the design document.
-/

/-- Modelled from the spec: a chunk of the missing backend engine
(§3 data model) — owning tenant, owning document, sequence number
within the document, and the text span. -/
structure Chunk where
  owner : String
  doc_id : String
  chunk_id : Nat
  text : String
deriving DecidableEq, Repr

/-- Modelled from the spec: the chunk window size W in characters
(420-character windows per the design notes). -/
def winSize : Nat := 420

/-- Modelled from the spec: the chunk overlap O in characters. -/
def overlap : Nat := 80

/-- Modelled from the spec: the stride W - O between chunk starts. -/
def stride : Nat := winSize - overlap

/-- Modelled from the spec: the number of chunks of a non-empty text of
length n — chunk i starts at i * stride and iteration stops once a
chunk reaches the end of the text. -/
def numChunks (n : Nat) : Nat :=
  if n ≤ winSize then 1 else (n - winSize + (stride - 1)) / stride + 1

/-- Modelled from the spec: the chunker §4.2 — overlapping fixed-size
character windows over the text, the final chunk possibly shorter. -/
def chunkTexts (text : String) : List String :=
  (List.range (numChunks text.length)).map
    (fun i => { data := (text.data.drop (i * stride)).take winSize })

/-- Modelled from the spec: the chunks produced when tenant t ingests a
document; every produced chunk is owned by t and tagged with the
document id (derived from the filename) and its sequence number. -/
def chunksOf (t doc text : String) : List Chunk :=
  (chunkTexts text).enum.map (fun p => { owner := t, doc_id := doc, chunk_id := p.1, text := p.2 })

/-- Modelled from the spec: the per-tenant index store, an association
of tenant id to that tenant's current chunk set (its index snapshot). -/
abbrev Store := List (String × List Chunk)

/-- Modelled from the spec: read a tenant's own index snapshot (empty
for an unknown tenant). -/
def tenantIndex (st : Store) (t : String) : List Chunk :=
  ((st.find? (fun p => p.1 == t)).map Prod.snd).getD []

/-- Modelled from the spec: atomically replace tenant t's snapshot —
only t's entry changes, no other tenant's snapshot is touched. -/
def setIndex (st : Store) (t : String) (cs : List Chunk) : Store :=
  (t, cs) :: st.filter (fun p => p.1 != t)

/-- Modelled from the spec: the maximum accepted upload size in bytes. -/
def maxUploadBytes : Nat := 5 * 1024 * 1024

/-- Modelled from the spec: the ingestion pipeline §4.7 — validate the
upload (non-empty, within the size bound, plain-text format), chunk
it, and swap in a new snapshot for that tenant in which the chunks of
a re-ingested document id supersede its prior chunks. -/
def ingest (st : Store) (t filename content : String) : Except String Store :=
  if content = "" then .error "ValidationError: empty file"
  else if maxUploadBytes < content.length then .error "ValidationError: oversized file"
  else if strEndsWith filename ".txt" = false then .error "ValidationError: wrong format"
  else .ok (setIndex st t
    (chunksOf t filename content ++ (tenantIndex st t).filter (fun c => c.doc_id != filename)))

/-- Modelled from the spec: the tenant registry §4.1 as a finite map
from opaque credential to tenant id. -/
def resolve (reg : List (String × String)) (cred : String) : Option String :=
  (reg.find? (fun p => p.1 == cred)).map Prod.snd

/-- Modelled from the spec: one authenticated upload request — a
credential, a filename and the file content. -/
structure IngestOp where
  cred : String
  filename : String
  content : String
deriving DecidableEq, Repr

/-- Modelled from the spec: the effect of one upload request on the
store — an unresolved credential or a validation failure changes
nothing, a successful ingest installs the new snapshot for the
resolved tenant only. -/
def applyOp (reg : List (String × String)) (st : Store) (op : IngestOp) : Store :=
  match resolve reg op.cred with
  | none => st
  | some t =>
    match ingest st t op.filename op.content with
    | .ok st2 => st2
    | .error _ => st

/-- Modelled from the spec: the store resulting from any serialization
of a batch of upload requests (concurrent population of the tenants'
indexes corresponds to an arbitrary interleaving, i.e. an arbitrary
such list). -/
def runOps (reg : List (String × String)) (ops : List IngestOp) : Store :=
  ops.foldl (applyOp reg) []

/-- Splitting a character list into maximal whitespace-free runs, the
accumulator holding the current run reversed. -/
def wordsAux : List Char → List Char → List (List Char)
  | [], acc => if acc.isEmpty then [] else [acc.reverse]
  | c :: cs, acc =>
    if c.isWhitespace then
      if acc.isEmpty then wordsAux cs [] else acc.reverse :: wordsAux cs []
    else wordsAux cs (c :: acc)

/-- Modelled from the spec: split a text into whitespace-separated
words for lexical scoring. -/
def words (s : String) : List String :=
  (wordsAux s.data []).map (fun l => { data := l })

/-- Modelled from the spec: the lexical relevance score of a chunk for
a question — the number of question words occurring in the chunk. -/
def chunkScore (question : String) (c : Chunk) : Nat :=
  ((words question).filter (fun w => (words c.text).contains w)).length

/-- Modelled from the spec: the minimum score floor below which a chunk
is not returned. -/
def minScoreFloor : Nat := 1

/-- Modelled from the spec: how many top-ranked chunks a query returns. -/
def topK : Nat := 3

/-- Modelled from the spec: insert a chunk into a list already ranked
by descending score, keeping it ranked. -/
def insertRanked (question : String) (c : Chunk) : List Chunk → List Chunk
  | [] => [c]
  | d :: ds =>
    if chunkScore question d ≤ chunkScore question c then c :: d :: ds
    else d :: insertRanked question c ds

/-- Modelled from the spec: rank chunks by descending relevance score. -/
def sortRanked (question : String) : List Chunk → List Chunk
  | [] => []
  | c :: cs => insertRanked question c (sortRanked question cs)

/-- Modelled from the spec: the retrieval engine §4.5 reading one
tenant's own index — drop chunks below the score floor, rank the rest
by descending score, keep the top k. -/
def retrieve (question : String) (chunks : List Chunk) : List Chunk :=
  (sortRanked question (chunks.filter (fun c => minScoreFloor ≤ chunkScore question c))).take topK

/-- Modelled from the spec: a source citation of a query response,
extended with the ghost field `ownerTenant` recording the owning
tenant of the cited chunk. -/
structure Source where
  doc_id : String
  chunk_id : Nat
  ownerTenant : String
  score : Nat
  excerpt : String
deriving DecidableEq, Repr

/-- Modelled from the spec: the `/query` response shape
`\x7btenant_id, answer, sources, no_answer\x7d`. -/
structure QueryResponse where
  tenant_id : String
  answer : String
  sources : List Source
  no_answer : Bool
deriving DecidableEq, Repr

/-- Modelled from the spec: the query path — resolve the credential
(401 `AuthenticationError` when it fails), retrieve from the resolved
tenant's own index only, cite every retrieved chunk, and signal
`no_answer` when nothing cleared the floor. -/
def queryBackend (reg : List (String × String)) (st : Store) (cred question : String) :
    Except String QueryResponse :=
  match resolve reg cred with
  | none => .error "AuthenticationError"
  | some t =>
    let ranked := retrieve question (tenantIndex st t)
    .ok { tenant_id := t
        , answer := match ranked with | [] => "" | c :: _ => c.text
        , sources := ranked.map
            (fun c => { doc_id := c.doc_id, chunk_id := c.chunk_id, ownerTenant := c.owner
                      , score := chunkScore question c, excerpt := c.text })
        , no_answer := ranked.isEmpty }

/-- A query outcome never cites a source owned by tenant b: true of an
authentication failure, and of a response all of whose sources have an
owning tenant other than b. -/
def noSourcesOwnedBy (e : Except String QueryResponse) (b : String) : Bool :=
  match e with
  | .error _ => true
  | .ok r => r.sources.all (fun s => s.ownerTenant != b)

/-- Every chunk filed under a tenant's entry of the store is owned by
that tenant. -/
def StoreWF (st : Store) : Prop :=
  ∀ p ∈ st, ∀ c ∈ p.2, c.owner = p.1

theorem mem_insertRanked {q : String} {c a : Chunk} {l : List Chunk}
    (h : a ∈ insertRanked q c l) : a = c ∨ a ∈ l := by
  induction l with
  | nil =>
    rw [insertRanked] at h
    exact Or.inl (List.mem_singleton.1 h)
  | cons d ds ih =>
    rw [insertRanked] at h
    split at h
    · simpa using h
    · rcases List.mem_cons.1 h with h | h
      · exact Or.inr (List.mem_cons.2 (Or.inl h))
      · rcases ih h with h | h
        · exact Or.inl h
        · exact Or.inr (List.mem_cons.2 (Or.inr h))

theorem mem_sortRanked {q : String} {a : Chunk} {l : List Chunk}
    (h : a ∈ sortRanked q l) : a ∈ l := by
  induction l with
  | nil => rw [sortRanked] at h; cases h
  | cons c cs ih =>
    rw [sortRanked] at h
    rcases mem_insertRanked h with h | h
    · exact h ▸ List.mem_cons_self ..
    · exact List.mem_cons.2 (Or.inr (ih h))

theorem mem_retrieve {q : String} {a : Chunk} {chunks : List Chunk}
    (h : a ∈ retrieve q chunks) : a ∈ chunks := by
  have h1 := List.take_subset _ _ h
  have h2 := mem_sortRanked h1
  exact (List.mem_filter.1 h2).1

theorem chunksOf_owner {t doc text : String} {c : Chunk}
    (h : c ∈ chunksOf t doc text) : c.owner = t := by
  rcases List.mem_map.1 h with ⟨p, _, rfl⟩
  rfl

theorem storeWF_nil : StoreWF [] := by
  intro p hp
  cases hp

theorem tenantIndex_owner {st : Store} {t : String} {c : Chunk}
    (h : StoreWF st) (hc : c ∈ tenantIndex st t) : c.owner = t := by
  unfold tenantIndex at hc
  cases hfind : st.find? (fun p => p.1 == t) with
  | none => rw [hfind] at hc; cases hc
  | some pr =>
    rw [hfind] at hc
    have hmem := List.mem_of_find?_eq_some hfind
    have hkey : pr.1 = t := by
      have := List.find?_some hfind
      exact eq_of_beq this
    exact hkey ▸ h pr hmem c hc

theorem storeWF_setIndex {st : Store} {t : String} {cs : List Chunk}
    (h : StoreWF st) (hcs : ∀ c ∈ cs, c.owner = t) : StoreWF (setIndex st t cs) := by
  intro p hp
  rcases List.mem_cons.1 hp with rfl | hp
  · exact hcs
  · exact h p (List.mem_filter.1 hp).1

theorem storeWF_ingest {st : Store} {t f x : String} {st2 : Store}
    (h : StoreWF st) (he : ingest st t f x = .ok st2) : StoreWF st2 := by
  unfold ingest at he
  split at he
  · cases he
  · split at he
    · cases he
    · split at he
      · cases he
      · cases he
        apply storeWF_setIndex h
        intro c hc
        rcases List.mem_append.1 hc with hc | hc
        · exact chunksOf_owner hc
        · exact tenantIndex_owner h (List.mem_filter.1 hc).1

theorem storeWF_applyOp (reg : List (String × String)) {st : Store}
    (h : StoreWF st) (op : IngestOp) : StoreWF (applyOp reg st op) := by
  unfold applyOp
  split
  · exact h
  · split
    · rename_i st2 hing
      exact storeWF_ingest h hing
    · exact h

theorem storeWF_foldl (reg : List (String × String)) (ops : List IngestOp)
    {st : Store} (h : StoreWF st) : StoreWF (ops.foldl (applyOp reg) st) := by
  induction ops generalizing st with
  | nil => exact h
  | cons op ops ih => exact ih (storeWF_applyOp reg h op)

theorem storeWF_runOps (reg : List (String × String)) (ops : List IngestOp) :
    StoreWF (runOps reg ops) :=
  storeWF_foldl reg ops storeWF_nil

/-- C1: for any two distinct tenants A and B, any registry, any batch of
upload operations populating the tenants' indexes (any interleaving,
hence also concurrent population), and any question, a query
authenticated as A never returns a source whose owning tenant is B —
and, the statement being symmetric in A and B, vice versa. -/
theorem query_isolation (reg : List (String × String)) (ops : List IngestOp)
    (cred question A B : String) (hA : resolve reg cred = some A) (hAB : A ≠ B) :
    noSourcesOwnedBy (queryBackend reg (runOps reg ops) cred question) B = true := by
  unfold queryBackend
  rw [hA]
  simp only [noSourcesOwnedBy, List.all_eq_true, List.mem_map]
  rintro s ⟨c, hc, rfl⟩
  have hcA : c.owner = A := tenantIndex_owner (storeWF_runOps reg ops) (mem_retrieve hc)
  simpa [bne_iff_ne, hcA] using hAB

/-- The registry of the two demo tenants used to witness the isolation
theorem on concrete data. -/
def demoRegistry : List (String × String) :=
  [("tenantA_key", "tenantA"), ("tenantB_key", "tenantB")]

/-- A concrete interleaving of uploads populating both tenants. -/
def demoOps : List IngestOp :=
  [⟨"tenantA_key", "docA1_procedure_sinistre.txt", "declarer un sinistre a sinistres"⟩,
   ⟨"tenantB_key", "docB1_delais.txt", "declaration sous 5 jours ouvres du sinistre"⟩,
   ⟨"tenantA_key", "docA2_email.txt", "email du service sinistre"⟩]

theorem query_isolation_witness :
    Backend.resolve Backend.demoRegistry "tenantA_key" = some "tenantA"
    ∧ ("tenantA" : String) ≠ "tenantB"
    ∧ Backend.noSourcesOwnedBy
        (Backend.queryBackend Backend.demoRegistry
          (Backend.runOps Backend.demoRegistry Backend.demoOps) "tenantA_key" "sinistre")
        "tenantB" = true :=
  ⟨by decide, by decide,
   query_isolation Backend.demoRegistry Backend.demoOps "tenantA_key" "sinistre"
     "tenantA" "tenantB" (by decide) (by decide)⟩

end Backend

/-- C2: the query request carries the credential only in the dedicated
`X-API-KEY` header (the sole other header is the JSON content type) and
its JSON body holds exactly the `question` field; the upload request
carries the credential only in the `X-API-KEY` header (its only header)
and its multipart body only the file. -/
theorem requests_credential_header_only (question apiKey : String) (file : JsFile) :
    headerValue (queryDocumentsRequest question apiKey) "X-API-KEY" = some apiKey
    ∧ (queryDocumentsRequest question apiKey).headers
        = [⟨"Content-Type", "application/json"⟩, ⟨"X-API-KEY", apiKey⟩]
    ∧ (queryDocumentsRequest question apiKey).body
        = .jsonFields [("question", question)]
    ∧ headerValue (uploadRequest apiKey file) "X-API-KEY" = some apiKey
    ∧ (uploadRequest apiKey file).headers = [⟨"X-API-KEY", apiKey⟩]
    ∧ (uploadRequest apiKey file).body = .multipart [("file", file.name)] :=
  ⟨rfl, rfl, rfl, rfl, rfl, rfl⟩

/-- The generic server-error message is never the empty string, so the
fallback branch of `handleQuery` never replaces it. -/
theorem serverErrorMsg_ne_empty (status : Nat) : serverErrorMsg status ≠ "" := by
  intro h
  have hd := congrArg String.data h
  rw [serverErrorMsg, String.data_append] at hd
  have h0 : ("" : String).data = [] := rfl
  rw [h0] at hd
  exact absurd (List.append_eq_nil.mp hd).1 (by decide)

/-- C3: a 401 response surfaces the invalid-key authentication failure
with no result rendered; any other non-2xx response surfaces the
generic server error with no result; a 2xx response, and only a 2xx
response, produces a result (and clears the error). -/
theorem handleQuery_status_dispatch (st : AppState) (status : Nat) (data : QueryResult) :
    (status = 401 →
      (handleQueryResponse st status data).error = some invalidKeyMsg
      ∧ (handleQueryResponse st status data).result = none)
    ∧ (responseOk status = false → status ≠ 401 →
      (handleQueryResponse st status data).error = some (serverErrorMsg status)
      ∧ (handleQueryResponse st status data).result = none)
    ∧ (responseOk status = true →
      (handleQueryResponse st status data).result = some data
      ∧ (handleQueryResponse st status data).error = none)
    ∧ ((handleQueryResponse st status data).result ≠ none → responseOk status = true) := by
  refine ⟨?_, ?_, ?_, ?_⟩
  · rintro rfl
    exact ⟨rfl, rfl⟩
  · intro hns h401
    simp [handleQueryResponse, queryDocumentsHandle, handleQuery, hns, h401,
      serverErrorMsg_ne_empty]
  · intro hok
    simp [handleQueryResponse, queryDocumentsHandle, handleQuery, hok]
  · intro hres
    by_cases hok : responseOk status = true
    · exact hok
    · exfalso
      rw [Bool.not_eq_true] at hok
      by_cases h401 : status = 401
      · subst h401
        exact hres rfl
      · exact hres (by
          simp [handleQueryResponse, queryDocumentsHandle, handleQuery, hok, h401,
            serverErrorMsg_ne_empty])

/-- A query result used to instantiate the frontend theorems. -/
def sampleResult : QueryResult :=
  { tenant_id := "tenantA"
  , answer := "sinistres"
  , sources := some [⟨"docA1_procedure_sinistre.txt", 2, "0.89", "declarer un sinistre"⟩]
  , no_answer := false }

theorem handleQuery_status_dispatch_witness :
    ((handleQueryResponse initialAppState 401 sampleResult).error = some invalidKeyMsg
      ∧ (handleQueryResponse initialAppState 401 sampleResult).result = none)
    ∧ (responseOk 500 = false ∧ (500 : Nat) ≠ 401
      ∧ (handleQueryResponse initialAppState 500 sampleResult).error = some (serverErrorMsg 500)
      ∧ (handleQueryResponse initialAppState 500 sampleResult).result = none)
    ∧ (responseOk 200 = true
      ∧ (handleQueryResponse initialAppState 200 sampleResult).result = some sampleResult
      ∧ (handleQueryResponse initialAppState 200 sampleResult).error = none) := by
  refine ⟨(handleQuery_status_dispatch initialAppState 401 sampleResult).1 rfl,
    ⟨by decide, by decide, ?_⟩, ⟨by decide, ?_⟩⟩
  · exact (handleQuery_status_dispatch initialAppState 500 sampleResult).2.1
      (by decide) (by decide)
  · exact (handleQuery_status_dispatch initialAppState 200 sampleResult).2.2.1 (by decide)

/-- C4: `handleFileChange` accepts a file — stores it as the selection
and clears the error — exactly when its name ends in `.txt`, its size
is positive, and its size is at most 5 MiB; any other file leaves no
selection, sets an error, and (the upload handler returning early
without a file) leads to no upload request. -/
theorem handleFileChange_validates (file : JsFile) (st : UploadState) :
    (((handleFileChange (some file) st).file = some file
        ∧ (handleFileChange (some file) st).error = none)
      ↔ (strEndsWith file.name ".txt" = true ∧ 0 < file.size
          ∧ file.size ≤ 5 * 1024 * 1024))
    ∧ (¬ (strEndsWith file.name ".txt" = true ∧ 0 < file.size
          ∧ file.size ≤ 5 * 1024 * 1024) →
        (handleFileChange (some file) st).file = none
        ∧ (handleFileChange (some file) st).error ≠ none
        ∧ uploadRequestOf (handleFileChange (some file) st) = none) := by
  refine ⟨?_, ?_⟩
  · cases hE : strEndsWith file.name ".txt" with
    | false => simp [handleFileChange, hE]
    | true =>
      by_cases h0 : file.size = 0
      · simp [handleFileChange, hE, h0]
      · by_cases hBig : 5 * 1024 * 1024 < file.size
        · have hrej : handleFileChange (some file) st
              = { st with error := some "Le fichier est trop volumineux (max 5MB)",
                          file := none } := by
            simp [handleFileChange, hE, h0, hBig]
          rw [hrej]
          simp [hE]
          omega
        · have hacc : handleFileChange (some file) st
              = { st with file := some file, error := none, success := none } := by
            simp [handleFileChange, hE, h0, hBig]
          rw [hacc]
          simp [hE, Nat.pos_of_ne_zero h0, Nat.le_of_not_lt hBig]
  · intro hcon
    cases hE : strEndsWith file.name ".txt" with
    | false => simp [handleFileChange, uploadRequestOf, hE]
    | true =>
      by_cases h0 : file.size = 0
      · simp [handleFileChange, uploadRequestOf, hE, h0]
      · by_cases hBig : 5 * 1024 * 1024 < file.size
        · simp [handleFileChange, uploadRequestOf, hE, h0, hBig]
        · exact absurd ⟨hE, Nat.pos_of_ne_zero h0, Nat.le_of_not_lt hBig⟩ hcon

theorem handleFileChange_validates_witness :
    (¬ (strEndsWith (JsFile.mk "notes.pdf" 10).name ".txt" = true
        ∧ 0 < (JsFile.mk "notes.pdf" 10).size
        ∧ (JsFile.mk "notes.pdf" 10).size ≤ 5 * 1024 * 1024))
    ∧ ((handleFileChange (some (JsFile.mk "notes.pdf" 10)) initialUploadState).file = none
      ∧ (handleFileChange (some (JsFile.mk "notes.pdf" 10)) initialUploadState).error ≠ none
      ∧ uploadRequestOf
          (handleFileChange (some (JsFile.mk "notes.pdf" 10)) initialUploadState) = none) :=
  ⟨by decide, (handleFileChange_validates (JsFile.mk "notes.pdf" 10) initialUploadState).2
    (by decide)⟩

/-- C5: for a non-null result, the answer text is rendered exactly when
`no_answer` is false, and the no-answer notice (with no answer text)
exactly when `no_answer` is true. -/
theorem renderResult_no_answer (r : QueryResult) :
    ((renderResult r).answerText = some r.answer ↔ r.no_answer = false)
    ∧ ((renderResult r).noAnswerNotice = true ↔ r.no_answer = true)
    ∧ (r.no_answer = true → (renderResult r).answerText = none)
    ∧ (r.no_answer = false → (renderResult r).answerText = some r.answer) := by
  cases hna : r.no_answer <;> simp [renderResult, hna]

/-- A no-answer result used to instantiate the rendering theorem. -/
def noAnswerResult : QueryResult :=
  { tenant_id := "tenantB", answer := "", sources := some [], no_answer := true }

theorem renderResult_no_answer_witness :
    noAnswerResult.no_answer = true ∧ (renderResult noAnswerResult).answerText = none :=
  ⟨rfl, (renderResult_no_answer noAnswerResult).2.2.1 rfl⟩

/-- C6: for a non-null result the tenant badge shows `tenant_id`; the
no-sources message appears exactly when the sources list is absent or
empty; every source of the response is rendered with its `doc_id`,
`chunk_id`, `score` and `excerpt`, and every rendered source entry
comes from a source of the response with exactly those fields. -/
theorem renderResult_sources_traceable (r : QueryResult) :
    (renderResult r).tenantBadge = r.tenant_id
    ∧ ((renderResult r).noSourcesMsg = true ↔ r.sources.getD [] = [])
    ∧ (∀ s ∈ r.sources.getD [],
        SourceView.mk s.doc_id s.chunk_id s.score s.excerpt ∈ (renderResult r).sourcesViews)
    ∧ (∀ v ∈ (renderResult r).sourcesViews,
        ∃ s ∈ r.sources.getD [], v = SourceView.mk s.doc_id s.chunk_id s.score s.excerpt) := by
  obtain ⟨tid, ans, ss, na⟩ := r
  cases ss with
  | none => simp [renderResult, hasNoSources]
  | some l =>
    cases l with
    | nil => simp [renderResult, hasNoSources]
    | cons a as =>
      have hviews : (renderResult ⟨tid, ans, some (a :: as), na⟩).sourcesViews
          = (a :: as).map
              (fun s : FrontSource => SourceView.mk s.doc_id s.chunk_id s.score s.excerpt) := by
        simp [renderResult, hasNoSources]
      refine ⟨rfl, by simp [renderResult, hasNoSources], ?_, ?_⟩
      · intro s hs
        rw [hviews]
        exact List.mem_map_of_mem _ (by simpa using hs)
      · intro v hv
        rw [hviews] at hv
        rcases List.mem_map.1 hv with ⟨s, hs, rfl⟩
        exact ⟨s, by simpa using hs, rfl⟩

theorem renderResult_sources_traceable_witness :
    FrontSource.mk "docA1_procedure_sinistre.txt" 2 "0.89" "declarer un sinistre"
      ∈ sampleResult.sources.getD []
    ∧ SourceView.mk "docA1_procedure_sinistre.txt" 2 "0.89" "declarer un sinistre"
      ∈ (renderResult sampleResult).sourcesViews :=
  ⟨by decide, (renderResult_sources_traceable sampleResult).2.2.1
    (FrontSource.mk "docA1_procedure_sinistre.txt" 2 "0.89" "declarer un sinistre")
    (by decide)⟩

/-- C7: mounting the app issues exactly one health check, and the
resulting badge is the operational one exactly when the endpoint
returned status "ok", the service-unavailable one exactly when it
returned status "error" or the request itself failed. -/
theorem startup_health_badge :
    startupEffects.length = 1
    ∧ ∀ o : HealthOutcome,
      (renderBadge (some (startupBackendStatus o)) = .operational ↔ o = .success "ok")
      ∧ (renderBadge (some (startupBackendStatus o)) = .unavailable
          ↔ (o = .success "error" ∨ o = .failure)) := by
  refine ⟨rfl, fun o => ?_⟩
  cases o with
  | success s =>
    by_cases h1 : s = "ok"
    · subst h1
      simp [renderBadge, startupBackendStatus, checkHealthResult]
    · by_cases h2 : s = "error"
      · subst h2
        simp [renderBadge, startupBackendStatus, checkHealthResult]
      · simp [renderBadge, startupBackendStatus, checkHealthResult, h1, h2]
  | failure => simp [renderBadge, startupBackendStatus, checkHealthResult]

/-- C8: the submit handler invokes `onSubmit` only when the trimmed
question is non-empty; a question that is empty or all whitespace never
produces a query request. -/
theorem handleSubmit_requires_nonblank (question apiKey : String) :
    (handleSubmit question apiKey = none ↔ jsTrim question = "")
    ∧ ((handleSubmit question apiKey).isSome ↔ jsTrim question ≠ "")
    ∧ ((∀ c ∈ question.data, c.isWhitespace) → handleSubmit question apiKey = none) := by
  refine ⟨?_, ?_, ?_⟩
  · unfold handleSubmit
    split <;> simp_all
  · unfold handleSubmit
    split <;> simp_all
  · intro hws
    have htrim : jsTrim question = "" := by
      unfold jsTrim
      rw [List.dropWhile_eq_nil_iff.2 (fun c hc => hws c hc)]
      rfl
    unfold handleSubmit
    rw [if_pos htrim]

theorem handleSubmit_requires_nonblank_witness :
    (∀ c ∈ ("   " : String).data, c.isWhitespace)
    ∧ handleSubmit "   " "tenantA_key" = none :=
  ⟨by decide, (handleSubmit_requires_nonblank "   " "tenantA_key").2.2 (by decide)⟩

/-- C9: dropping a file on the upload zone and choosing it through the
picker produce identical component states — the drop handler delegates
to the same `handleFileChange` validation. -/
theorem handleDrop_eq_handleFileChange (dropped : Option JsFile) (st : UploadState) :
    handleDrop dropped st = handleFileChange dropped st := by
  cases dropped <;> rfl

/-- C10: after `handleQuery` completes, at most one of the result and
the error is set — a success stores only the result, a failure only the
error, both having been cleared up front. -/
theorem handleQuery_result_error_exclusive (st : AppState)
    (outcome : Except String QueryResult) :
    (handleQuery st outcome).result = none ∨ (handleQuery st outcome).error = none := by
  cases outcome with
  | ok data => exact Or.inr rfl
  | error msg => exact Or.inl rfl

end RagMT
